import Mathlib

/-!
# `torus invites send`: resolution of team names and dispatch of the invite

A shallow embedding of `sendInvite` (cmd/invites.go) and the statements the
specification makes about it.

The function talks to five collaborators (configuration loading, the
organization lookup, the lookup of the current user, the team listing and the
invite creation).  Each is called at most once in a run, so a run is determined
by the command-line context and by what each collaborator answers to the
arguments it is given; the embedding takes those answers as a record of
functions and returns, besides the Go `error`, the ordered list of collaborator
calls that were made and the lines that were printed.

The result types of the API client (`api.OrgResult`, `api.UserResult`,
`api.TeamResult`) and `identity.ID` are declared in other packages.  They are
modelled by the fields `sendInvite` reads, with the pointers it dereferences
without a check (`team.ID`, `team.Body`, `org.ID`, `org.Body`, `user.ID`)
present.
-/

namespace Invites

/-! ## Data model -/

/-- The type `identity.ID`: a fixed-size value; `make([]identity.ID, n)` fills
a slice with its zero value. -/
structure ID where
  val : Nat
deriving DecidableEq, Repr

/-- The zero value of `identity.ID`. -/
def ID.zero : ID := ⟨0⟩

/-- The body of an organization: `org.Body`. -/
structure OrgBody where
  Name : String
deriving DecidableEq, Repr

/-- The type `api.OrgResult`, as read by `sendInvite`. -/
structure OrgResult where
  ID : ID
  Body : OrgBody
deriving DecidableEq, Repr

/-- The type `api.UserResult`, as read by `sendInvite`. -/
structure UserResult where
  ID : ID
deriving DecidableEq, Repr

/-- The body of a team: `team.Body`. -/
structure TeamBody where
  Name : String
deriving DecidableEq, Repr

/-- The type `api.TeamResult`, as read by `sendInvite`. -/
structure TeamResult where
  ID : ID
  Body : TeamBody
deriving DecidableEq, Repr

/-- A Go `error` value: either the `*cli.ExitError` made by `cli.NewExitError`
(a message and an exit code), or any other error, known by its text. -/
inductive GoError where
  | exitError (message : String) (exitCode : Int)
  | other (text : String)
deriving DecidableEq, Repr

/-- The method `err.Error()`. -/
def GoError.Error : GoError → String
  | .exitError message _ => message
  | .other text => text

/-- The constructor `cli.NewExitError(message, exitCode)`. -/
def NewExitError (message : String) (exitCode : Int) : GoError :=
  .exitError message exitCode

/-- The configuration returned by `loadConfig`; `sendInvite` only hands it to
`api.NewClient`. -/
structure Config where
  contents : String
deriving DecidableEq, Repr

/-- The part of `*cli.Context` that `sendInvite` reads. -/
structure Context where
  /-- The field `ctx.App.HelpName`. -/
  appHelpName : String
  /-- The field `ctx.Command.Name`. -/
  commandName : String
  /-- The field `ctx.Command.ArgsUsage`. -/
  commandArgsUsage : String
  /-- The value of `ctx.IsSet("org")`. -/
  orgIsSet : Bool
  /-- The value of `ctx.String("org")`. -/
  org : String
  /-- The value of `ctx.IsSet("team")`. -/
  teamIsSet : Bool
  /-- The value of `ctx.StringSlice("team")`. -/
  team : List String
  /-- The value of `ctx.Args()`. -/
  args : List String

/-- The services of `*api.Client` that `sendInvite` calls.  A `(value, error)`
result is an `Except`: the code looks at the value only when the error is nil.
`Orgs.GetByName` may return no error and a nil organization (`none`). -/
structure Client where
  /-- The call `client.Orgs.GetByName(ctx, name)`. -/
  orgsGetByName : String → Except GoError (Option OrgResult)
  /-- The call `client.Users.Self(ctx)`. -/
  usersSelf : Except GoError UserResult
  /-- The call `client.Teams.GetByOrg(ctx, orgID)`. -/
  teamsGetByOrg : ID → Except GoError (List TeamResult)
  /-- The call `client.Invites.Send(ctx, email, orgID, inviterID, teamIDs)`:
  `none` is a nil error. -/
  invitesSend : String → ID → ID → List ID → Option GoError

/-- The collaborators of one run. -/
structure Env where
  /-- The call `loadConfig()`. -/
  loadConfig : Except GoError Config
  /-- The constructor `api.NewClient(cfg)`. -/
  newClient : Config → Client

/-- A call made to a collaborator, with its arguments. -/
inductive Call where
  | loadConfig
  | orgsGetByName (name : String)
  | usersSelf
  | teamsGetByOrg (orgID : ID)
  | invitesSend (email : String) (orgID inviterID : ID) (teamIDs : List ID)
deriving DecidableEq, Repr

/-- What a run of `sendInvite` does: the error it returns (`none` is nil), the
collaborator calls it made, in order, and the lines it printed. -/
structure Run where
  err : Option GoError
  calls : List Call
  output : List String
deriving DecidableEq, Repr

/-! ## Library functions -/

/-- The function `strings.Join(elems, sep)`. -/
def stringsJoin : List String → String → String
  | [], _ => ""
  | [a], _ => a
  | a :: b :: rest, sep => a ++ sep ++ stringsJoin (b :: rest) sep

/-- The function `strings.Contains(s, substr)`: `substr` occurs in `s` as a
contiguous block.  Go compares bytes; on well-formed UTF-8 text that is the
same as comparing characters. -/
def stringsContains (s substr : String) : Bool :=
  decide (substr.data <:+: s.data)

/-! ## The command -/

/-- The constant `orgInviteFailed`. -/
def orgInviteFailed : String := "Could not send invitation to org, please try again."

/-- The inner loop of `TeamSearch` (lines 106-111): the ID of the first team, in
list order, whose name is `teamName`, or `none` when the loop falls through. -/
def findTeam (teamName : String) : List TeamResult → Option ID
  | [] => none
  | team :: teams => if team.Body.Name = teamName then some team.ID else findTeam teamName teams

/-- The outer loop of `TeamSearch` (lines 104-113), from index `i` on, over the
remaining names: a match is stored at `teamIDs[i]`, a miss is appended to
`missingTeams`. -/
def teamSearchFrom (teams : List TeamResult) :
    Nat → List String → List ID × List String → List ID × List String
  | _, [], state => state
  | i, teamName :: rest, (teamIDs, missingTeams) =>
    match findTeam teamName teams with
    | some id => teamSearchFrom teams (i + 1) rest (teamIDs.set i id, missingTeams)
    | none => teamSearchFrom teams (i + 1) rest (teamIDs, missingTeams ++ [teamName])

/-- Lines 100-113: `teamIDs := make([]identity.ID, len(matchTeams))`, an empty
`missingTeams`, and the `TeamSearch` loop.  Returns `(teamIDs, missingTeams)`. -/
def teamSearch (matchTeams : List String) (teams : List TeamResult) : List ID × List String :=
  teamSearchFrom teams 0 matchTeams (List.replicate matchTeams.length ID.zero, [])

/-- Lines 94-98: the names that are resolved, `ctx.StringSlice("team")`, or
`"member"` appended to it when it is empty. -/
def matchTeamsOf (ctx : Context) : List String :=
  let matchTeams := ctx.team
  if ctx.team.length < 1 then matchTeams ++ ["member"] else matchTeams

/-- The usage text built at lines 38-39. -/
def usageOf (ctx : Context) : String :=
  let spacer := "    "
  "Usage:\n" ++ spacer ++ ctx.appHelpName ++ " " ++ ctx.commandName ++ " [command options] "
    ++ ctx.commandArgsUsage

/-- The function `sendInvite` (lines 37-138).  The tests `len(args) < 1` and
`email == ""` are the two arms of the match on `ctx.args`; the variable
`teamNames` of lines 53-58 is never read and is left out. -/
def sendInvite (ctx : Context) (env : Env) : Run :=
  let usage := usageOf ctx
  if !ctx.orgIsSet then
    ⟨some (NewExitError ("Missing --org flag\n\n" ++ usage) (-1)), [], []⟩
  else
  match ctx.args with
  | [] => ⟨some (NewExitError ("Missing email\n\n" ++ usage) (-1)), [], []⟩
  | email :: _ =>
  if email = "" then
    ⟨some (NewExitError ("Missing email\n\n" ++ usage) (-1)), [], []⟩
  else
  match env.loadConfig with
  | .error err => ⟨some err, [.loadConfig], []⟩
  | .ok cfg =>
  let client := env.newClient cfg
  match client.orgsGetByName ctx.org with
  | .error _ =>
    ⟨some (NewExitError orgInviteFailed (-1)), [.loadConfig, .orgsGetByName ctx.org], []⟩
  | .ok none =>
    ⟨some (NewExitError "Org not found" (-1)), [.loadConfig, .orgsGetByName ctx.org], []⟩
  | .ok (some org) =>
  match client.usersSelf with
  | .error _ =>
    ⟨some (NewExitError orgInviteFailed (-1)),
      [.loadConfig, .orgsGetByName ctx.org, .usersSelf], []⟩
  | .ok user =>
  match client.teamsGetByOrg org.ID with
  | .error _ =>
    ⟨some (NewExitError orgInviteFailed (-1)),
      [.loadConfig, .orgsGetByName ctx.org, .usersSelf, .teamsGetByOrg org.ID], []⟩
  | .ok teams =>
  let matchTeams := matchTeamsOf ctx
  let (teamIDs, missingTeams) := teamSearch matchTeams teams
  if missingTeams.length > 0 then
    let missingTeamNames := stringsJoin missingTeams ", "
    ⟨some (NewExitError ("Unknown team(s): " ++ missingTeamNames) (-1)),
      [.loadConfig, .orgsGetByName ctx.org, .usersSelf, .teamsGetByOrg org.ID], []⟩
  else if teamIDs.length < 1 then
    ⟨some (NewExitError orgInviteFailed (-1)),
      [.loadConfig, .orgsGetByName ctx.org, .usersSelf, .teamsGetByOrg org.ID], []⟩
  else
  let calls := [.loadConfig, .orgsGetByName ctx.org, .usersSelf, .teamsGetByOrg org.ID,
    Call.invitesSend email org.ID user.ID teamIDs]
  match client.invitesSend email org.ID user.ID teamIDs with
  | some err =>
    if stringsContains err.Error "resource exists" then
      ⟨some (NewExitError (email ++ " has already been invited to the " ++ org.Body.Name ++ " org")
        (-1)), calls, []⟩
    else
      ⟨some (NewExitError orgInviteFailed (-1)), calls, []⟩
  | none =>
    ⟨none, calls,
      ["Invitation to join the " ++ org.Body.Name ++ " organization has been sent to " ++ email
         ++ ".",
       "\nThey will be added to the following teams once their invite has been confirmed:",
       "\n\t" ++ stringsJoin matchTeams "\n\t",
       "\nThey will receive an e-mail with instructions."]⟩

/-! ## Specification vocabulary -/

/-- The team `t` is the first team of `teams`, in list order, whose name is
exactly `name`. -/
def IsFirstTeamNamed (name : String) (teams : List TeamResult) (t : TeamResult) : Prop :=
  ∃ pre post, teams = pre ++ t :: post ∧ t.Body.Name = name ∧ ∀ u ∈ pre, u.Body.Name ≠ name

/-- The names of `names` that are the name of no team of `teams`, in the order
of `names`. -/
def missingNames (names : List String) (teams : List TeamResult) : List String :=
  names.filter (fun name => decide (∀ t ∈ teams, t.Body.Name ≠ name))

/-! ## Concrete runs -/

/-- The team ID `T1` of the end-to-end scenarios. -/
def T1 : ID := ⟨1⟩

/-- The team ID `T2` of the end-to-end scenarios. -/
def T2 : ID := ⟨2⟩

/-- The organization "acme". -/
def acme : OrgResult := ⟨⟨7⟩, ⟨"acme"⟩⟩

/-- The user who runs the command. -/
def requester : UserResult := ⟨⟨9⟩⟩

/-- The teams of "acme": "member" with ID `T1` and "admins" with ID `T2`. -/
def acmeTeams : List TeamResult := [⟨T1, ⟨"member"⟩⟩, ⟨T2, ⟨"admins"⟩⟩]

/-- A team list in which two teams are named "admins". -/
def dupTeams : List TeamResult :=
  [⟨⟨1⟩, ⟨"member"⟩⟩, ⟨⟨2⟩, ⟨"admins"⟩⟩, ⟨⟨3⟩, ⟨"admins"⟩⟩, ⟨⟨4⟩, ⟨"Admins"⟩⟩]

/-- Collaborators that give fixed answers, whatever their arguments. -/
def scriptedEnv (config : Except GoError Config) (org : Except GoError (Option OrgResult))
    (user : Except GoError UserResult) (teams : Except GoError (List TeamResult))
    (send : Option GoError) : Env :=
  ⟨config, fun _ => ⟨fun _ => org, user, fun _ => teams, fun _ _ _ _ => send⟩⟩

/-- The context of `torus invites send --org <org> [--team <team>]... bob@example.com`. -/
def inviteCtx (org : String) (team : List String) : Context :=
  ⟨"torus invites", "send", "<email>", true, org, !team.isEmpty, team, ["bob@example.com"]⟩

/-! ## The inner loop -/

theorem findTeam_eq_none_iff (name : String) (teams : List TeamResult) :
    findTeam name teams = none ↔ ∀ t ∈ teams, t.Body.Name ≠ name := by
  induction teams with
  | nil => simp [findTeam]
  | cons t ts ih =>
    by_cases h : t.Body.Name = name
    · simp [findTeam, h]
    · simp [findTeam, h, ih]

theorem findTeam_eq_some_iff (name : String) (teams : List TeamResult) (id : ID) :
    findTeam name teams = some id ↔ ∃ t, IsFirstTeamNamed name teams t ∧ t.ID = id := by
  induction teams with
  | nil =>
    simp only [findTeam, reduceCtorEq, false_iff]
    rintro ⟨t, ⟨pre, post, h, -⟩, -⟩
    simp at h
  | cons t0 ts ih =>
    by_cases h0 : t0.Body.Name = name
    · simp only [findTeam, h0, if_true, Option.some.injEq]
      constructor
      · rintro rfl
        exact ⟨t0, ⟨[], ts, rfl, h0, by simp⟩, rfl⟩
      · rintro ⟨t, ⟨pre, post, hsplit, -, hpre⟩, rfl⟩
        cases pre with
        | nil =>
          simp only [List.nil_append, List.cons.injEq] at hsplit
          rw [hsplit.1]
        | cons p pre =>
          simp only [List.cons_append, List.cons.injEq] at hsplit
          exact absurd (hsplit.1 ▸ h0) (hpre p (by simp))
    · simp only [findTeam, h0, if_false, ih]
      constructor
      · rintro ⟨t, ⟨pre, post, hsplit, hname, hpre⟩, rfl⟩
        refine ⟨t, ⟨t0 :: pre, post, by simp [hsplit], hname, ?_⟩, rfl⟩
        intro u hu
        rcases List.mem_cons.1 hu with rfl | hu
        · exact h0
        · exact hpre u hu
      · rintro ⟨t, ⟨pre, post, hsplit, hname, hpre⟩, rfl⟩
        cases pre with
        | nil =>
          simp only [List.nil_append, List.cons.injEq] at hsplit
          exact absurd (hsplit.1 ▸ hname) h0
        | cons p pre =>
          simp only [List.cons_append, List.cons.injEq] at hsplit
          exact ⟨t, ⟨pre, post, hsplit.2, hname, fun u hu => hpre u (by simp [hu])⟩, rfl⟩

theorem findTeam_isSome_of_mem (name : String) (teams : List TeamResult)
    (h : ∃ t ∈ teams, t.Body.Name = name) : ∃ id, findTeam name teams = some id := by
  cases hf : findTeam name teams with
  | some id => exact ⟨id, rfl⟩
  | none =>
    obtain ⟨t, ht, hname⟩ := h
    exact absurd hname ((findTeam_eq_none_iff name teams).1 hf t ht)

/-! ## The outer loop -/

theorem teamSearchFrom_snd (teams : List TeamResult) (names : List String) :
    ∀ (i : Nat) (teamIDs : List ID) (missingTeams : List String),
      (teamSearchFrom teams i names (teamIDs, missingTeams)).2
        = missingTeams ++ missingNames names teams := by
  induction names with
  | nil => intro i teamIDs missingTeams; simp [teamSearchFrom, missingNames]
  | cons name rest ih =>
    intro i teamIDs missingTeams
    cases hf : findTeam name teams with
    | some id =>
      have hex : ¬ ∀ t ∈ teams, t.Body.Name ≠ name := by
        intro hall
        rw [(findTeam_eq_none_iff name teams).2 hall] at hf
        cases hf
      have hstep : missingNames (name :: rest) teams = missingNames rest teams := by
        unfold missingNames
        rw [List.filter_cons_of_neg]
        simpa using hex
      simp only [teamSearchFrom, hf, ih, hstep]
    | none =>
      have hall := (findTeam_eq_none_iff name teams).1 hf
      have hstep : missingNames (name :: rest) teams = name :: missingNames rest teams := by
        unfold missingNames
        rw [List.filter_cons_of_pos]
        simpa using hall
      simp only [teamSearchFrom, hf, ih, hstep, List.append_assoc, List.singleton_append]

theorem teamSearchFrom_length (teams : List TeamResult) (names : List String) :
    ∀ (i : Nat) (teamIDs : List ID) (missingTeams : List String),
      (teamSearchFrom teams i names (teamIDs, missingTeams)).1.length = teamIDs.length := by
  induction names with
  | nil => intro i teamIDs missingTeams; simp [teamSearchFrom]
  | cons name rest ih =>
    intro i teamIDs missingTeams
    cases hf : findTeam name teams with
    | some id => simp only [teamSearchFrom, hf, ih, List.length_set]
    | none => simp only [teamSearchFrom, hf, ih]

/-- The loop from index `i` on leaves the slots below `i` as they are. -/
theorem teamSearchFrom_getElem?_lt (teams : List TeamResult) (names : List String) :
    ∀ (i : Nat) (teamIDs : List ID) (missingTeams : List String) (j : Nat), j < i →
      (teamSearchFrom teams i names (teamIDs, missingTeams)).1[j]? = teamIDs[j]? := by
  induction names with
  | nil => intro i teamIDs missingTeams j _; simp [teamSearchFrom]
  | cons name rest ih =>
    intro i teamIDs missingTeams j hj
    cases hf : findTeam name teams with
    | some id =>
      simp only [teamSearchFrom, hf]
      rw [ih (i + 1) _ _ j (by omega), List.getElem?_set_ne (by omega)]
    | none =>
      simp only [teamSearchFrom, hf]
      rw [ih (i + 1) _ _ j (by omega)]

/-- The slot of a name that has a match holds the ID found by the inner loop. -/
theorem teamSearchFrom_getElem?_some (teams : List TeamResult) (names : List String) :
    ∀ (i : Nat) (teamIDs : List ID) (missingTeams : List String) (k : Nat) (id : ID),
      i + k < teamIDs.length → (Option.bind names[k]? fun name => findTeam name teams) = some id →
      (teamSearchFrom teams i names (teamIDs, missingTeams)).1[i + k]? = some id := by
  induction names with
  | nil => intro i teamIDs missingTeams k id _ h; simp at h
  | cons name rest ih =>
    intro i teamIDs missingTeams k id hlen h
    cases k with
    | zero =>
      simp only [List.getElem?_cons_zero, Option.some_bind] at h
      simp only [teamSearchFrom, h, Nat.add_zero]
      rw [teamSearchFrom_getElem?_lt teams rest (i + 1) _ _ i (by omega)]
      simp only [Nat.add_zero] at hlen
      simp [hlen]
    | succ k =>
      simp only [List.getElem?_cons_succ] at h
      have hidx : i + (k + 1) = (i + 1) + k := by omega
      cases hf : findTeam name teams with
      | some id0 =>
        simp only [teamSearchFrom, hf]
        rw [hidx]
        exact ih (i + 1) _ _ k id (by rw [List.length_set]; omega) h
      | none =>
        simp only [teamSearchFrom, hf]
        rw [hidx]
        exact ih (i + 1) _ _ k id (by omega) h

theorem teamSearch_snd (matchTeams : List String) (teams : List TeamResult) :
    (teamSearch matchTeams teams).2 = missingNames matchTeams teams := by
  simp [teamSearch, teamSearchFrom_snd]

theorem teamSearch_length (matchTeams : List String) (teams : List TeamResult) :
    (teamSearch matchTeams teams).1.length = matchTeams.length := by
  simp [teamSearch, teamSearchFrom_length]

theorem teamSearch_getElem? (matchTeams : List String) (teams : List TeamResult) (i : Nat)
    (hi : i < matchTeams.length) (id : ID) (h : findTeam matchTeams[i] teams = some id) :
    (teamSearch matchTeams teams).1[i]? = some id := by
  have := teamSearchFrom_getElem?_some teams matchTeams 0
    (List.replicate matchTeams.length ID.zero) [] i id (by simpa using hi)
    (by simp [List.getElem?_eq_getElem hi, h])
  simpa [teamSearch] using this

theorem missingNames_eq_nil_iff (names : List String) (teams : List TeamResult) :
    missingNames names teams = [] ↔ ∀ name ∈ names, ∃ t ∈ teams, t.Body.Name = name := by
  simp [missingNames, List.filter_eq_nil_iff]

theorem mem_missingNames (names : List String) (teams : List TeamResult) (name : String) :
    name ∈ missingNames names teams ↔ name ∈ names ∧ ∀ t ∈ teams, t.Body.Name ≠ name := by
  simp [missingNames, List.mem_filter]

theorem matchTeamsOf_ne_nil (ctx : Context) : matchTeamsOf ctx ≠ [] := by
  unfold matchTeamsOf
  cases h : ctx.team <;> simp

theorem matchTeamsOf_of_nil (ctx : Context) (h : ctx.team = []) : matchTeamsOf ctx = ["member"] := by
  simp [matchTeamsOf, h]

theorem matchTeamsOf_of_ne_nil (ctx : Context) (h : ctx.team ≠ []) : matchTeamsOf ctx = ctx.team := by
  unfold matchTeamsOf
  cases hc : ctx.team with
  | nil => exact absurd hc h
  | cons a l => simp

/-- The run once the flags, the configuration and the three lookups are through. -/
theorem sendInvite_of_lookups (ctx : Context) (env : Env) (email : String) (rest : List String)
    (cfg : Config) (org : OrgResult) (user : UserResult) (teams : List TeamResult)
    (horg : ctx.orgIsSet = true) (hargs : ctx.args = email :: rest) (hemail : email ≠ "")
    (hcfg : env.loadConfig = .ok cfg)
    (hget : (env.newClient cfg).orgsGetByName ctx.org = .ok (some org))
    (hself : (env.newClient cfg).usersSelf = .ok user)
    (hteams : (env.newClient cfg).teamsGetByOrg org.ID = .ok teams) :
    sendInvite ctx env =
      if (missingNames (matchTeamsOf ctx) teams).length > 0 then
        ⟨some (.exitError ("Unknown team(s): " ++ stringsJoin (missingNames (matchTeamsOf ctx) teams) ", ") (-1)),
          [.loadConfig, .orgsGetByName ctx.org, .usersSelf, .teamsGetByOrg org.ID], []⟩
      else
        match (env.newClient cfg).invitesSend email org.ID user.ID (teamSearch (matchTeamsOf ctx) teams).1 with
        | some err =>
          if stringsContains err.Error "resource exists" then
            ⟨some (.exitError (email ++ " has already been invited to the " ++ org.Body.Name ++ " org") (-1)),
              [.loadConfig, .orgsGetByName ctx.org, .usersSelf, .teamsGetByOrg org.ID,
                .invitesSend email org.ID user.ID (teamSearch (matchTeamsOf ctx) teams).1], []⟩
          else
            ⟨some (.exitError orgInviteFailed (-1)),
              [.loadConfig, .orgsGetByName ctx.org, .usersSelf, .teamsGetByOrg org.ID,
                .invitesSend email org.ID user.ID (teamSearch (matchTeamsOf ctx) teams).1], []⟩
        | none =>
          ⟨none,
            [.loadConfig, .orgsGetByName ctx.org, .usersSelf, .teamsGetByOrg org.ID,
              .invitesSend email org.ID user.ID (teamSearch (matchTeamsOf ctx) teams).1],
            ["Invitation to join the " ++ org.Body.Name ++ " organization has been sent to " ++ email
               ++ ".",
             "\nThey will be added to the following teams once their invite has been confirmed:",
             "\n\t" ++ stringsJoin (matchTeamsOf ctx) "\n\t",
             "\nThey will receive an e-mail with instructions."]⟩ := by
  have hlen : ¬ (teamSearch (matchTeamsOf ctx) teams).1.length < 1 := by
    rw [teamSearch_length]
    have := matchTeamsOf_ne_nil ctx
    cases h : matchTeamsOf ctx with
    | nil => exact absurd h this
    | cons a l => simp
  rw [← teamSearch_snd]
  simp only [sendInvite, horg, hargs, hemail, hcfg, hget, hself, hteams, NewExitError]
  simp only [Bool.not_true, Bool.false_eq_true, if_false, hlen]

/-! ## Strings -/

theorem stringsContains_iff (s substr : String) :
    stringsContains s substr = true ↔ substr.data <:+: s.data := by
  simp [stringsContains]

theorem intercalate_go_eq (sep : String) (rest : List String) :
    ∀ (acc a : String),
      String.intercalate.go acc sep (a :: rest) = acc ++ sep ++ stringsJoin (a :: rest) sep := by
  induction rest with
  | nil => intro acc a; simp [String.intercalate.go, stringsJoin]
  | cons b bs ih =>
    intro acc a
    rw [String.intercalate.go, ih]
    simp [stringsJoin, String.append_assoc]

/-- The model of `strings.Join` is the library's `String.intercalate`: the
elements in order, the separator between each two neighbours. -/
theorem stringsJoin_eq_intercalate (sep : String) (names : List String) :
    stringsJoin names sep = sep.intercalate names := by
  cases names with
  | nil => simp [stringsJoin, String.intercalate]
  | cons a rest =>
    cases rest with
    | nil => simp [stringsJoin, String.intercalate, String.intercalate.go]
    | cons b bs =>
      have hgo : sep.intercalate (a :: b :: bs) = String.intercalate.go a sep (b :: bs) := rfl
      rw [hgo, intercalate_go_eq]
      simp [stringsJoin, String.append_assoc]

theorem isInfix_stringsJoin (sep : String) (names : List String) :
    ∀ name ∈ names, name.data <:+: (stringsJoin names sep).data := by
  induction names with
  | nil => intro name h; simp at h
  | cons a l ih =>
    intro name h
    cases l with
    | nil =>
      simp only [List.mem_singleton] at h
      subst h
      simp [stringsJoin]
    | cons b rest =>
      simp only [stringsJoin, String.data_append]
      rcases List.mem_cons.1 h with rfl | h
      · exact ⟨[], sep.data ++ (stringsJoin (b :: rest) sep).data, by simp⟩
      · obtain ⟨u, v, huv⟩ := ih name h
        exact ⟨a.data ++ sep.data ++ u, v, by simp [← huv]⟩

/-- A run that makes the invite-creation call went through the flag checks,
the configuration and the three lookups, found no missing name, and passed the
looked-up IDs and the `teamIDs` of the loop. -/
theorem invitesSend_mem_calls (ctx : Context) (env : Env) (email : String) (orgID inviterID : ID)
    (teamIDs : List ID)
    (h : Call.invitesSend email orgID inviterID teamIDs ∈ (sendInvite ctx env).calls) :
    ∃ rest cfg org user teams,
      ctx.orgIsSet = true ∧ ctx.args = email :: rest ∧ email ≠ "" ∧
      env.loadConfig = .ok cfg ∧
      (env.newClient cfg).orgsGetByName ctx.org = .ok (some org) ∧
      (env.newClient cfg).usersSelf = .ok user ∧
      (env.newClient cfg).teamsGetByOrg org.ID = .ok teams ∧
      missingNames (matchTeamsOf ctx) teams = [] ∧
      orgID = org.ID ∧ inviterID = user.ID ∧
      teamIDs = (teamSearch (matchTeamsOf ctx) teams).1 := by
  cases horg : ctx.orgIsSet with
  | false => simp [sendInvite, horg] at h
  | true =>
  cases hargs : ctx.args with
  | nil => simp [sendInvite, horg, hargs] at h
  | cons email0 rest =>
  by_cases hemail : email0 = ""
  · simp [sendInvite, horg, hargs, hemail] at h
  cases hcfg : env.loadConfig with
  | error e => simp [sendInvite, horg, hargs, hemail, hcfg] at h
  | ok cfg =>
  cases hget : (env.newClient cfg).orgsGetByName ctx.org with
  | error e => simp [sendInvite, horg, hargs, hemail, hcfg, hget] at h
  | ok o =>
  cases o with
  | none => simp [sendInvite, horg, hargs, hemail, hcfg, hget] at h
  | some org =>
  cases hself : (env.newClient cfg).usersSelf with
  | error e => simp [sendInvite, horg, hargs, hemail, hcfg, hget, hself] at h
  | ok user =>
  cases hteams : (env.newClient cfg).teamsGetByOrg org.ID with
  | error e => simp [sendInvite, horg, hargs, hemail, hcfg, hget, hself, hteams] at h
  | ok teams =>
  rw [sendInvite_of_lookups ctx env email0 rest cfg org user teams horg hargs hemail hcfg hget
    hself hteams] at h
  by_cases hm : (missingNames (matchTeamsOf ctx) teams).length > 0
  · simp [hm] at h
  · rw [if_neg hm] at h
    have hnil : missingNames (matchTeamsOf ctx) teams = [] :=
      List.length_eq_zero.1 (by omega)
    have hcall : email = email0 ∧ orgID = org.ID ∧ inviterID = user.ID ∧
        teamIDs = (teamSearch (matchTeamsOf ctx) teams).1 := by
      cases hsend : (env.newClient cfg).invitesSend email0 org.ID user.ID
          (teamSearch (matchTeamsOf ctx) teams).1 with
      | none => simpa [hsend] using h
      | some err =>
        by_cases hc : stringsContains err.Error "resource exists" = true
        · simpa [hsend, hc] using h
        · simpa [hsend, hc] using h
    obtain ⟨rfl, ho, hi, ht⟩ := hcall
    exact ⟨rest, cfg, org, user, teams, rfl, rfl, hemail, rfl, hget, hself, hteams, hnil, ho, hi, ht⟩

theorem exitError_already_invited_ne_generic (email orgName : String) (code : Int) :
    GoError.exitError (email ++ " has already been invited to the " ++ orgName ++ " org") code
      ≠ GoError.exitError orgInviteFailed (-1) := by
  intro h
  injection h with hmsg _
  have hdata := congrArg (fun s => s.data.reverse.head?) hmsg
  simp [orgInviteFailed, String.data_append] at hdata

/-- What the loop stores when no name is missing: slot `i` holds the ID of the
first team named like the `i`-th name. -/
theorem teamSearch_first_of_missing_nil (matchTeams : List String) (teams : List TeamResult)
    (hnil : missingNames matchTeams teams = []) (i : Nat) (hi : i < matchTeams.length) :
    ∃ t, IsFirstTeamNamed (matchTeams.get ⟨i, hi⟩) teams t ∧
      (teamSearch matchTeams teams).1[i]? = some t.ID := by
  have hall := (missingNames_eq_nil_iff matchTeams teams).1 hnil
  obtain ⟨id, hid⟩ := findTeam_isSome_of_mem (matchTeams.get ⟨i, hi⟩) teams
    (hall _ (List.get_mem matchTeams i hi))
  obtain ⟨t, hfirst, rfl⟩ := (findTeam_eq_some_iff _ teams id).1 hid
  exact ⟨t, hfirst, teamSearch_getElem? matchTeams teams i hi t.ID hid⟩

/-! ## Claims -/

/-- C1. Team-name resolution: when every requested name is the name of some
team of the list, the loop ends with no missing name, `teamIDs` is as long as
the list of requested names, and its `i`-th entry is the ID of the first team,
in list order, whose name is exactly the `i`-th requested name. -/
theorem teamSearch_resolves (matchTeams : List String) (teams : List TeamResult)
    (hall : ∀ name ∈ matchTeams, ∃ t ∈ teams, t.Body.Name = name) :
    (teamSearch matchTeams teams).2 = [] ∧
    (teamSearch matchTeams teams).1.length = matchTeams.length ∧
    ∀ (i : Nat) (hi : i < matchTeams.length),
      ∃ t, IsFirstTeamNamed (matchTeams.get ⟨i, hi⟩) teams t ∧
        (teamSearch matchTeams teams).1[i]? = some t.ID := by
  refine ⟨?_, teamSearch_length matchTeams teams, ?_⟩
  · rw [teamSearch_snd]
    exact (missingNames_eq_nil_iff matchTeams teams).2 hall
  · intro i hi
    obtain ⟨id, hid⟩ := findTeam_isSome_of_mem (matchTeams.get ⟨i, hi⟩) teams
      (hall _ (List.get_mem matchTeams i hi))
    obtain ⟨t, hfirst, rfl⟩ := (findTeam_eq_some_iff _ teams id).1 hid
    exact ⟨t, hfirst, teamSearch_getElem? matchTeams teams i hi t.ID hid⟩

/-- C1 on a team list with two teams named "admins" and the name "admins"
requested twice: both slots hold the ID of the first of the two. -/
theorem teamSearch_resolves_witness :
    (teamSearch ["admins", "member", "admins"] dupTeams).2 = [] ∧
    (teamSearch ["admins", "member", "admins"] dupTeams).1 = [⟨2⟩, ⟨1⟩, ⟨2⟩] ∧
    ((teamSearch ["admins", "member", "admins"] dupTeams).2 = [] ∧
    (teamSearch ["admins", "member", "admins"] dupTeams).1.length
      = ["admins", "member", "admins"].length ∧
    ∀ (i : Nat) (hi : i < ["admins", "member", "admins"].length),
      ∃ t, IsFirstTeamNamed (["admins", "member", "admins"].get ⟨i, hi⟩) dupTeams t ∧
        (teamSearch ["admins", "member", "admins"] dupTeams).1[i]? = some t.ID) :=
  ⟨by decide, by decide, teamSearch_resolves ["admins", "member", "admins"] dupTeams (by decide)⟩

/-- C2. Unknown teams: after successful lookups, when some name to resolve is
the name of no team of the list, `sendInvite` returns the exit error whose
message is "Unknown team(s): " followed by all the names without a match, in
the order they were requested, with ", " between each two neighbours (the
library's `String.intercalate`, not the model of `strings.Join` that the code
calls); in particular every name without a match, not only the first, occurs
in the message. -/
theorem sendInvite_unknown_teams (ctx : Context) (env : Env) (email : String)
    (rest : List String) (cfg : Config) (org : OrgResult) (user : UserResult)
    (teams : List TeamResult)
    (horg : ctx.orgIsSet = true) (hargs : ctx.args = email :: rest) (hemail : email ≠ "")
    (hcfg : env.loadConfig = .ok cfg)
    (hget : (env.newClient cfg).orgsGetByName ctx.org = .ok (some org))
    (hself : (env.newClient cfg).usersSelf = .ok user)
    (hteams : (env.newClient cfg).teamsGetByOrg org.ID = .ok teams)
    (hmiss : ∃ name ∈ matchTeamsOf ctx, ∀ t ∈ teams, t.Body.Name ≠ name) :
    (sendInvite ctx env).err = some (.exitError
      ("Unknown team(s): " ++ ", ".intercalate
        ((matchTeamsOf ctx).filter fun name => decide (∀ t ∈ teams, t.Body.Name ≠ name)))
      (-1)) ∧
    (sendInvite ctx env).calls =
      [.loadConfig, .orgsGetByName ctx.org, .usersSelf, .teamsGetByOrg org.ID] ∧
    ∀ name ∈ matchTeamsOf ctx, (∀ t ∈ teams, t.Body.Name ≠ name) →
      name.data <:+: ("Unknown team(s): " ++ ", ".intercalate
        ((matchTeamsOf ctx).filter fun name => decide (∀ t ∈ teams, t.Body.Name ≠ name))).data := by
  obtain ⟨name, hname, hno⟩ := hmiss
  have hmem : name ∈ missingNames (matchTeamsOf ctx) teams :=
    (mem_missingNames _ _ _).2 ⟨hname, hno⟩
  have hpos : (missingNames (matchTeamsOf ctx) teams).length > 0 :=
    List.length_pos_of_mem hmem
  have hrun := sendInvite_of_lookups ctx env email rest cfg org user teams horg hargs hemail hcfg
    hget hself hteams
  rw [if_pos hpos, stringsJoin_eq_intercalate] at hrun
  refine ⟨by rw [hrun]; rfl, by rw [hrun], ?_⟩
  intro n hn hnone
  have hin : n ∈ missingNames (matchTeamsOf ctx) teams := (mem_missingNames _ _ _).2 ⟨hn, hnone⟩
  obtain ⟨u, v, huv⟩ := isInfix_stringsJoin ", " _ n hin
  rw [stringsJoin_eq_intercalate] at huv
  exact ⟨"Unknown team(s): ".data ++ u, v, by
    rw [String.data_append]
    simp only [List.append_assoc] at huv ⊢
    rw [huv]
    rfl⟩

/-- C2 on two runs against the teams "member" and "admins": the scenario of the
specification, "owners" alone, and a request with three misses around a match,
one of them repeated, all of which are reported, in order. -/
theorem sendInvite_unknown_teams_witness :
    (sendInvite (inviteCtx "acme" ["owners"])
      (scriptedEnv (.ok ⟨""⟩) (.ok (some acme)) (.ok requester) (.ok acmeTeams) none)).err
      = some (.exitError "Unknown team(s): owners" (-1)) ∧
    (sendInvite (inviteCtx "acme" ["owners", "member", "staff", "owners"])
      (scriptedEnv (.ok ⟨""⟩) (.ok (some acme)) (.ok requester) (.ok acmeTeams) none)).err
      = some (.exitError "Unknown team(s): owners, staff, owners" (-1)) ∧
    "staff".data <:+: "Unknown team(s): owners, staff, owners".data :=
  ⟨(sendInvite_unknown_teams (inviteCtx "acme" ["owners"])
      (scriptedEnv (.ok ⟨""⟩) (.ok (some acme)) (.ok requester) (.ok acmeTeams) none)
      "bob@example.com" [] ⟨""⟩ acme requester acmeTeams rfl rfl (by decide) rfl rfl rfl rfl
      (by decide)).1,
   (sendInvite_unknown_teams (inviteCtx "acme" ["owners", "member", "staff", "owners"])
      (scriptedEnv (.ok ⟨""⟩) (.ok (some acme)) (.ok requester) (.ok acmeTeams) none)
      "bob@example.com" [] ⟨""⟩ acme requester acmeTeams rfl rfl (by decide) rfl rfl rfl rfl
      (by decide)).1,
   (sendInvite_unknown_teams (inviteCtx "acme" ["owners", "member", "staff", "owners"])
      (scriptedEnv (.ok ⟨""⟩) (.ok (some acme)) (.ok requester) (.ok acmeTeams) none)
      "bob@example.com" [] ⟨""⟩ acme requester acmeTeams rfl rfl (by decide) rfl rfl rfl rfl
      (by decide)).2.2 "staff" (by decide) (by decide)⟩

/-- C3. No invite is dispatched with unresolved teams: when `sendInvite` makes
the call `client.Invites.Send`, every name to resolve (after defaulting) is the
name of some team of the list returned for the looked-up organization, and the
IDs passed are the `teamIDs` of the loop, one per name, each the ID of the first
team with that name: no slot still holds the zero value it was created with. -/
theorem sendInvite_send_only_resolved (ctx : Context) (env : Env) (email : String)
    (orgID inviterID : ID) (teamIDs : List ID)
    (h : Call.invitesSend email orgID inviterID teamIDs ∈ (sendInvite ctx env).calls) :
    ∃ cfg org teams,
      env.loadConfig = .ok cfg ∧
      (env.newClient cfg).orgsGetByName ctx.org = .ok (some org) ∧
      (env.newClient cfg).teamsGetByOrg org.ID = .ok teams ∧
      orgID = org.ID ∧
      (∀ name ∈ matchTeamsOf ctx, ∃ t ∈ teams, t.Body.Name = name) ∧
      teamIDs = (teamSearch (matchTeamsOf ctx) teams).1 ∧
      teamIDs.length = (matchTeamsOf ctx).length ∧
      ∀ (i : Nat) (hi : i < (matchTeamsOf ctx).length),
        ∃ t, t ∈ teams ∧ IsFirstTeamNamed ((matchTeamsOf ctx).get ⟨i, hi⟩) teams t ∧
          teamIDs[i]? = some t.ID := by
  obtain ⟨rest, cfg, org, user, teams, -, -, -, hcfg, hget, -, hteams, hnil, ho, -, ht⟩ :=
    invitesSend_mem_calls ctx env email orgID inviterID teamIDs h
  refine ⟨cfg, org, teams, hcfg, hget, hteams, ho,
    (missingNames_eq_nil_iff _ _).1 hnil, ht, ?_, ?_⟩
  · rw [ht, teamSearch_length]
  · intro i hi
    obtain ⟨t, hfirst, hslot⟩ := teamSearch_first_of_missing_nil _ teams hnil i hi
    refine ⟨t, ?_, hfirst, by rw [ht]; exact hslot⟩
    obtain ⟨pre, post, hsplit, -⟩ := hfirst
    simp [hsplit]

/-- C3 on the run that invites bob@example.com to the team "admins" of "acme". -/
theorem sendInvite_send_only_resolved_witness :
    Call.invitesSend "bob@example.com" acme.ID requester.ID [T2] ∈
      (sendInvite (inviteCtx "acme" ["admins"])
        (scriptedEnv (.ok ⟨""⟩) (.ok (some acme)) (.ok requester) (.ok acmeTeams) none)).calls ∧
    ∃ cfg org teams,
      (scriptedEnv (.ok ⟨""⟩) (.ok (some acme)) (.ok requester) (.ok acmeTeams) none).loadConfig
        = .ok cfg ∧
      ((scriptedEnv (.ok ⟨""⟩) (.ok (some acme)) (.ok requester) (.ok acmeTeams)
        none).newClient cfg).orgsGetByName (inviteCtx "acme" ["admins"]).org = .ok (some org) ∧
      ((scriptedEnv (.ok ⟨""⟩) (.ok (some acme)) (.ok requester) (.ok acmeTeams)
        none).newClient cfg).teamsGetByOrg org.ID = .ok teams ∧
      acme.ID = org.ID ∧
      (∀ name ∈ matchTeamsOf (inviteCtx "acme" ["admins"]), ∃ t ∈ teams, t.Body.Name = name) ∧
      [T2] = (teamSearch (matchTeamsOf (inviteCtx "acme" ["admins"])) teams).1 ∧
      [T2].length = (matchTeamsOf (inviteCtx "acme" ["admins"])).length ∧
      ∀ (i : Nat) (hi : i < (matchTeamsOf (inviteCtx "acme" ["admins"])).length),
        ∃ t, t ∈ teams ∧
          IsFirstTeamNamed ((matchTeamsOf (inviteCtx "acme" ["admins"])).get ⟨i, hi⟩) teams t ∧
          [T2][i]? = some t.ID :=
  ⟨by decide,
    sendInvite_send_only_resolved (inviteCtx "acme" ["admins"])
      (scriptedEnv (.ok ⟨""⟩) (.ok (some acme)) (.ok requester) (.ok acmeTeams) none)
      "bob@example.com" acme.ID requester.ID [T2] (by decide)⟩

/-- C4. Successful dispatch: with the org flag set, a non-empty email,
configuration loaded, the organization found, the user lookup and the team
listing successful and every name to resolve matching a team, `sendInvite`
makes the four lookups and then exactly one call `client.Invites.Send`, with the
given email, the ID of the looked-up organization, the ID of the requesting
user and the resolved team IDs in the order of the names; when that call
returns no error, `sendInvite` returns nil. -/
theorem sendInvite_dispatches (ctx : Context) (env : Env) (email : String)
    (rest : List String) (cfg : Config) (org : OrgResult) (user : UserResult)
    (teams : List TeamResult)
    (horg : ctx.orgIsSet = true) (hargs : ctx.args = email :: rest) (hemail : email ≠ "")
    (hcfg : env.loadConfig = .ok cfg)
    (hget : (env.newClient cfg).orgsGetByName ctx.org = .ok (some org))
    (hself : (env.newClient cfg).usersSelf = .ok user)
    (hteams : (env.newClient cfg).teamsGetByOrg org.ID = .ok teams)
    (hall : ∀ name ∈ matchTeamsOf ctx, ∃ t ∈ teams, t.Body.Name = name) :
    ∃ teamIDs : List ID,
      teamIDs.length = (matchTeamsOf ctx).length ∧
      (∀ (i : Nat) (hi : i < (matchTeamsOf ctx).length),
        ∃ t, IsFirstTeamNamed ((matchTeamsOf ctx).get ⟨i, hi⟩) teams t ∧
          teamIDs[i]? = some t.ID) ∧
      (sendInvite ctx env).calls =
        [.loadConfig, .orgsGetByName ctx.org, .usersSelf, .teamsGetByOrg org.ID,
          .invitesSend email org.ID user.ID teamIDs] ∧
      ((env.newClient cfg).invitesSend email org.ID user.ID teamIDs = none →
        (sendInvite ctx env).err = none) := by
  have hnil := (missingNames_eq_nil_iff _ _).2 hall
  have hrun := sendInvite_of_lookups ctx env email rest cfg org user teams horg hargs hemail hcfg
    hget hself hteams
  simp only [hnil, List.length_nil, gt_iff_lt, Nat.lt_irrefl, if_false] at hrun
  refine ⟨(teamSearch (matchTeamsOf ctx) teams).1, teamSearch_length _ _,
    fun i hi => teamSearch_first_of_missing_nil _ teams hnil i hi, ?_, ?_⟩
  · rw [hrun]
    cases (env.newClient cfg).invitesSend email org.ID user.ID
        (teamSearch (matchTeamsOf ctx) teams).1 with
    | none => rfl
    | some err =>
      by_cases hc : stringsContains err.Error "resource exists" = true
      · simp [hc]
      · simp [hc]
  · intro hsend
    rw [hrun, hsend]

/-- C4 on the scenario of the specification: the whole run, with its single
invite-creation call for `[T2]`, its nil error and the lines printed. -/
theorem sendInvite_dispatches_witness :
    sendInvite (inviteCtx "acme" ["admins"])
        (scriptedEnv (.ok ⟨""⟩) (.ok (some acme)) (.ok requester) (.ok acmeTeams) none)
      = ⟨none,
          [.loadConfig, .orgsGetByName "acme", .usersSelf, .teamsGetByOrg acme.ID,
            .invitesSend "bob@example.com" acme.ID requester.ID [T2]],
          ["Invitation to join the acme organization has been sent to bob@example.com.",
            "\nThey will be added to the following teams once their invite has been confirmed:",
            "\n\tadmins",
            "\nThey will receive an e-mail with instructions."]⟩ ∧
    ∃ teamIDs : List ID,
      teamIDs.length = (matchTeamsOf (inviteCtx "acme" ["admins"])).length ∧
      (∀ (i : Nat) (hi : i < (matchTeamsOf (inviteCtx "acme" ["admins"])).length),
        ∃ t, IsFirstTeamNamed ((matchTeamsOf (inviteCtx "acme" ["admins"])).get ⟨i, hi⟩)
            acmeTeams t ∧
          teamIDs[i]? = some t.ID) ∧
      (sendInvite (inviteCtx "acme" ["admins"])
        (scriptedEnv (.ok ⟨""⟩) (.ok (some acme)) (.ok requester) (.ok acmeTeams) none)).calls =
        [.loadConfig, .orgsGetByName (inviteCtx "acme" ["admins"]).org, .usersSelf,
          .teamsGetByOrg acme.ID, .invitesSend "bob@example.com" acme.ID requester.ID teamIDs] ∧
      ((((scriptedEnv (.ok ⟨""⟩) (.ok (some acme)) (.ok requester) (.ok acmeTeams)
          none).newClient ⟨""⟩).invitesSend "bob@example.com" acme.ID requester.ID teamIDs
          = none) →
        (sendInvite (inviteCtx "acme" ["admins"])
          (scriptedEnv (.ok ⟨""⟩) (.ok (some acme)) (.ok requester) (.ok acmeTeams) none)).err
          = none) :=
  ⟨by decide,
    sendInvite_dispatches (inviteCtx "acme" ["admins"])
      (scriptedEnv (.ok ⟨""⟩) (.ok (some acme)) (.ok requester) (.ok acmeTeams) none)
      "bob@example.com" [] ⟨""⟩ acme requester acmeTeams rfl rfl (by decide) rfl rfl rfl rfl
      (by decide)⟩

/-- C5 as stated fails: with `--org ACME`, a lookup that answers with the
organization named "acme" and an invite creation that fails with "resource
exists", the call is made and the message names "acme": the name supplied to
the command, "ACME", does not occur in it. -/
theorem duplicate_invite_names_looked_up_org :
    Call.invitesSend "bob@example.com" acme.ID requester.ID [T1] ∈
      (sendInvite (inviteCtx "ACME" [])
        (scriptedEnv (.ok ⟨""⟩) (.ok (some acme)) (.ok requester) (.ok acmeTeams)
          (some (.other "resource exists")))).calls ∧
    (sendInvite (inviteCtx "ACME" [])
      (scriptedEnv (.ok ⟨""⟩) (.ok (some acme)) (.ok requester) (.ok acmeTeams)
        (some (.other "resource exists")))).err
      = some (.exitError "bob@example.com has already been invited to the acme org" (-1)) ∧
    stringsContains "bob@example.com has already been invited to the acme org"
      (inviteCtx "ACME" []).org = false := by
  decide

/-- C5, amended. Duplicate invite: when the call `client.Invites.Send` is made and
returns an error whose text contains "resource exists", `sendInvite` returns
the exit error "<email> has already been invited to the <name> org", which is
not the generic failure; `<email>` is the email given to the command and
`<name>` is the name carried by the organization that the lookup returned,
hence the name given with the org flag whenever the looked-up organization
bears that name. -/
theorem sendInvite_duplicate (ctx : Context) (env : Env) (cfg : Config) (email : String)
    (orgID inviterID : ID) (teamIDs : List ID) (e : GoError)
    (hcall : Call.invitesSend email orgID inviterID teamIDs ∈ (sendInvite ctx env).calls)
    (hcfg : env.loadConfig = .ok cfg)
    (hsend : (env.newClient cfg).invitesSend email orgID inviterID teamIDs = some e)
    (hexists : stringsContains e.Error "resource exists" = true) :
    ∃ rest org,
      ctx.args = email :: rest ∧
      (env.newClient cfg).orgsGetByName ctx.org = .ok (some org) ∧
      (sendInvite ctx env).err = some (.exitError
        (email ++ " has already been invited to the " ++ org.Body.Name ++ " org") (-1)) ∧
      (sendInvite ctx env).err ≠ some (.exitError orgInviteFailed (-1)) ∧
      (org.Body.Name = ctx.org →
        (sendInvite ctx env).err = some (.exitError
          (email ++ " has already been invited to the " ++ ctx.org ++ " org") (-1))) := by
  obtain ⟨rest, cfg0, org, user, teams, horg, hargs, hemail, hcfg0, hget, hself, hteams, hnil,
    rfl, rfl, rfl⟩ := invitesSend_mem_calls ctx env email orgID inviterID teamIDs hcall
  rw [hcfg] at hcfg0
  cases hcfg0
  have hrun := sendInvite_of_lookups ctx env email rest cfg org user teams horg hargs hemail hcfg
    hget hself hteams
  simp only [hnil, List.length_nil, gt_iff_lt, Nat.lt_irrefl, if_false, hsend, hexists,
    if_true] at hrun
  refine ⟨rest, org, hargs, hget, by rw [hrun], ?_, ?_⟩
  · rw [hrun]
    intro h
    exact exitError_already_invited_ne_generic email org.Body.Name (-1) (Option.some.inj h)
  · intro hname
    rw [hrun, hname]

/-- The amended C5 on a run where the invite creation answers "409: resource
exists". -/
theorem sendInvite_duplicate_witness :
    ∃ rest org,
      (inviteCtx "acme" []).args = "bob@example.com" :: rest ∧
      ((scriptedEnv (.ok ⟨""⟩) (.ok (some acme)) (.ok requester) (.ok acmeTeams)
        (some (.other "409: resource exists"))).newClient ⟨""⟩).orgsGetByName
          (inviteCtx "acme" []).org = .ok (some org) ∧
      (sendInvite (inviteCtx "acme" [])
        (scriptedEnv (.ok ⟨""⟩) (.ok (some acme)) (.ok requester) (.ok acmeTeams)
          (some (.other "409: resource exists")))).err = some (.exitError
        ("bob@example.com" ++ " has already been invited to the " ++ org.Body.Name ++ " org")
        (-1)) ∧
      (sendInvite (inviteCtx "acme" [])
        (scriptedEnv (.ok ⟨""⟩) (.ok (some acme)) (.ok requester) (.ok acmeTeams)
          (some (.other "409: resource exists")))).err
        ≠ some (.exitError orgInviteFailed (-1)) ∧
      (org.Body.Name = (inviteCtx "acme" []).org →
        (sendInvite (inviteCtx "acme" [])
          (scriptedEnv (.ok ⟨""⟩) (.ok (some acme)) (.ok requester) (.ok acmeTeams)
            (some (.other "409: resource exists")))).err = some (.exitError
          ("bob@example.com" ++ " has already been invited to the "
            ++ (inviteCtx "acme" []).org ++ " org") (-1))) :=
  sendInvite_duplicate (inviteCtx "acme" [])
    (scriptedEnv (.ok ⟨""⟩) (.ok (some acme)) (.ok requester) (.ok acmeTeams)
      (some (.other "409: resource exists")))
    ⟨""⟩ "bob@example.com" acme.ID requester.ID [T1] (.other "409: resource exists")
    (by decide) rfl rfl (by decide)

/-- C6. Organization not found: with the org flag set, a non-empty email and
configuration loaded, when the lookup by name returns no error and no
organization, `sendInvite` returns the exit error "Org not found", which is
not the generic message, and the only calls made are the configuration load
and the organization lookup: the user lookup, the team listing and the invite
creation are not called. -/
theorem sendInvite_org_not_found (ctx : Context) (env : Env) (email : String)
    (rest : List String) (cfg : Config)
    (horg : ctx.orgIsSet = true) (hargs : ctx.args = email :: rest) (hemail : email ≠ "")
    (hcfg : env.loadConfig = .ok cfg)
    (hget : (env.newClient cfg).orgsGetByName ctx.org = .ok none) :
    (sendInvite ctx env).err = some (.exitError "Org not found" (-1)) ∧
    "Org not found" ≠ orgInviteFailed ∧
    (sendInvite ctx env).calls = [.loadConfig, .orgsGetByName ctx.org] ∧
    Call.usersSelf ∉ (sendInvite ctx env).calls ∧
    (∀ orgID, Call.teamsGetByOrg orgID ∉ (sendInvite ctx env).calls) ∧
    (∀ email' orgID inviterID teamIDs,
      Call.invitesSend email' orgID inviterID teamIDs ∉ (sendInvite ctx env).calls) := by
  have hrun : sendInvite ctx env
      = ⟨some (.exitError "Org not found" (-1)), [.loadConfig, .orgsGetByName ctx.org], []⟩ := by
    simp [sendInvite, horg, hargs, hemail, hcfg, hget, NewExitError]
  rw [hrun]
  refine ⟨rfl, by decide, rfl, by simp, by simp, by simp⟩

/-- C6 on a run where the lookup of "acme" finds nothing. -/
theorem sendInvite_org_not_found_witness :
    (sendInvite (inviteCtx "acme" ["admins"])
      (scriptedEnv (.ok ⟨""⟩) (.ok none) (.ok requester) (.ok acmeTeams) none)).err
      = some (.exitError "Org not found" (-1)) ∧
    (sendInvite (inviteCtx "acme" ["admins"])
      (scriptedEnv (.ok ⟨""⟩) (.ok none) (.ok requester) (.ok acmeTeams) none)).calls
      = [.loadConfig, .orgsGetByName "acme"] :=
  ⟨(sendInvite_org_not_found (inviteCtx "acme" ["admins"])
      (scriptedEnv (.ok ⟨""⟩) (.ok none) (.ok requester) (.ok acmeTeams) none)
      "bob@example.com" [] ⟨""⟩ rfl rfl (by decide) rfl rfl).1,
   (sendInvite_org_not_found (inviteCtx "acme" ["admins"])
      (scriptedEnv (.ok ⟨""⟩) (.ok none) (.ok requester) (.ok acmeTeams) none)
      "bob@example.com" [] ⟨""⟩ rfl rfl (by decide) rfl rfl).2.2.1⟩

/-- C7. Default team: when the team flag yields an empty list, the names that
are resolved are exactly ["member"]; then, after successful lookups, if the
team list has a team named "member", the loop yields exactly one ID, that of
the first team named "member", with nothing missing, and the invite is sent
with exactly that one team ID.  When the team flag yields a non-empty list, the
names resolved are exactly that list: "member" is not added. -/
theorem sendInvite_default_team (ctx : Context) :
    (ctx.team = [] → matchTeamsOf ctx = ["member"]) ∧
    (ctx.team ≠ [] → matchTeamsOf ctx = ctx.team) ∧
    ∀ (env : Env) (email : String) (rest : List String) (cfg : Config) (org : OrgResult)
      (user : UserResult) (teams : List TeamResult),
      ctx.team = [] →
      ctx.orgIsSet = true → ctx.args = email :: rest → email ≠ "" →
      env.loadConfig = .ok cfg →
      (env.newClient cfg).orgsGetByName ctx.org = .ok (some org) →
      (env.newClient cfg).usersSelf = .ok user →
      (env.newClient cfg).teamsGetByOrg org.ID = .ok teams →
      (∃ u ∈ teams, u.Body.Name = "member") →
      ∃ t, IsFirstTeamNamed "member" teams t ∧
        teamSearch (matchTeamsOf ctx) teams = ([t.ID], []) ∧
        (sendInvite ctx env).calls =
          [.loadConfig, .orgsGetByName ctx.org, .usersSelf, .teamsGetByOrg org.ID,
            .invitesSend email org.ID user.ID [t.ID]] := by
  refine ⟨matchTeamsOf_of_nil ctx, matchTeamsOf_of_ne_nil ctx, ?_⟩
  intro env email rest cfg org user teams hteam horg hargs hemail hcfg hget hself hteams hmem
  obtain ⟨id, hfind⟩ := findTeam_isSome_of_mem "member" teams hmem
  obtain ⟨t, hfirst, rfl⟩ := (findTeam_eq_some_iff "member" teams id).1 hfind
  have hsearch : teamSearch (matchTeamsOf ctx) teams = ([t.ID], []) := by
    rw [matchTeamsOf_of_nil ctx hteam]
    simp [teamSearch, teamSearchFrom, hfind]
  have hnil : missingNames (matchTeamsOf ctx) teams = [] := by
    rw [← teamSearch_snd, hsearch]
  have hrun := sendInvite_of_lookups ctx env email rest cfg org user teams horg hargs hemail hcfg
    hget hself hteams
  simp only [hnil, List.length_nil, gt_iff_lt, Nat.lt_irrefl, if_false, hsearch] at hrun
  refine ⟨t, hfirst, hsearch, ?_⟩
  rw [hrun]
  cases (env.newClient cfg).invitesSend email org.ID user.ID [t.ID] with
  | none => rfl
  | some err =>
    by_cases hc : stringsContains err.Error "resource exists" = true
    · simp [hc]
    · simp [hc]

/-- C7 on "acme": no team flag resolves "member" to `T1`, the only team ID
sent; the flag "admins" leaves the names as given. -/
theorem sendInvite_default_team_witness :
    matchTeamsOf (inviteCtx "acme" []) = ["member"] ∧
    matchTeamsOf (inviteCtx "acme" ["admins"]) = ["admins"] ∧
    (sendInvite (inviteCtx "acme" [])
      (scriptedEnv (.ok ⟨""⟩) (.ok (some acme)) (.ok requester) (.ok acmeTeams) none)).calls =
      [.loadConfig, .orgsGetByName "acme", .usersSelf, .teamsGetByOrg acme.ID,
        .invitesSend "bob@example.com" acme.ID requester.ID [T1]] ∧
    ∃ t, IsFirstTeamNamed "member" acmeTeams t ∧
      teamSearch (matchTeamsOf (inviteCtx "acme" [])) acmeTeams = ([t.ID], []) ∧
      (sendInvite (inviteCtx "acme" [])
        (scriptedEnv (.ok ⟨""⟩) (.ok (some acme)) (.ok requester) (.ok acmeTeams) none)).calls =
        [.loadConfig, .orgsGetByName (inviteCtx "acme" []).org, .usersSelf,
          .teamsGetByOrg acme.ID, .invitesSend "bob@example.com" acme.ID requester.ID [t.ID]] :=
  ⟨(sendInvite_default_team (inviteCtx "acme" [])).1 rfl,
   (sendInvite_default_team (inviteCtx "acme" ["admins"])).2.1 (by decide),
   by decide,
   (sendInvite_default_team (inviteCtx "acme" [])).2.2
      (scriptedEnv (.ok ⟨""⟩) (.ok (some acme)) (.ok requester) (.ok acmeTeams) none)
      "bob@example.com" [] ⟨""⟩ acme requester acmeTeams rfl rfl rfl (by decide)
      rfl rfl rfl rfl (by decide)⟩

/-- C8. Generic failure: with the org flag set, a non-empty email and
configuration loaded, an error of the organization lookup, of the user lookup
or of the team listing makes `sendInvite` return the exit error with exactly
the message `orgInviteFailed`, the failed call being the last call made (so no
invite is created); and when the invite creation is called and fails with an
error whose text does not contain "resource exists", the same exit error is
returned.  In each case the message is that fixed constant whatever the
collaborator's error is: nothing of it is taken from the error. -/
theorem sendInvite_generic_failure (ctx : Context) (env : Env) (email : String)
    (rest : List String) (cfg : Config)
    (horg : ctx.orgIsSet = true) (hargs : ctx.args = email :: rest) (hemail : email ≠ "")
    (hcfg : env.loadConfig = .ok cfg) :
    (∀ e, (env.newClient cfg).orgsGetByName ctx.org = .error e →
      sendInvite ctx env = ⟨some (.exitError orgInviteFailed (-1)),
        [.loadConfig, .orgsGetByName ctx.org], []⟩) ∧
    (∀ org e, (env.newClient cfg).orgsGetByName ctx.org = .ok (some org) →
      (env.newClient cfg).usersSelf = .error e →
      sendInvite ctx env = ⟨some (.exitError orgInviteFailed (-1)),
        [.loadConfig, .orgsGetByName ctx.org, .usersSelf], []⟩) ∧
    (∀ org user e, (env.newClient cfg).orgsGetByName ctx.org = .ok (some org) →
      (env.newClient cfg).usersSelf = .ok user →
      (env.newClient cfg).teamsGetByOrg org.ID = .error e →
      sendInvite ctx env = ⟨some (.exitError orgInviteFailed (-1)),
        [.loadConfig, .orgsGetByName ctx.org, .usersSelf, .teamsGetByOrg org.ID], []⟩) ∧
    (∀ email' orgID inviterID teamIDs e,
      Call.invitesSend email' orgID inviterID teamIDs ∈ (sendInvite ctx env).calls →
      (env.newClient cfg).invitesSend email' orgID inviterID teamIDs = some e →
      stringsContains e.Error "resource exists" = false →
      (sendInvite ctx env).err = some (.exitError orgInviteFailed (-1))) := by
  refine ⟨?_, ?_, ?_, ?_⟩
  · intro e hget
    simp [sendInvite, horg, hargs, hemail, hcfg, hget, NewExitError]
  · intro org e hget hself
    simp [sendInvite, horg, hargs, hemail, hcfg, hget, hself, NewExitError]
  · intro org user e hget hself hteams
    simp [sendInvite, horg, hargs, hemail, hcfg, hget, hself, hteams, NewExitError]
  · intro email' orgID inviterID teamIDs e hcall hsend hnot
    obtain ⟨rest0, cfg0, org, user, teams, -, hargs0, -, hcfg0, hget, hself, hteams, hnil,
      rfl, rfl, rfl⟩ := invitesSend_mem_calls ctx env email' orgID inviterID teamIDs hcall
    rw [hcfg] at hcfg0
    cases hcfg0
    rw [hargs] at hargs0
    cases hargs0
    have hrun := sendInvite_of_lookups ctx env email rest cfg org user teams horg hargs hemail
      hcfg hget hself hteams
    simp only [hnil, List.length_nil, gt_iff_lt, Nat.lt_irrefl, if_false, hsend, hnot,
      Bool.false_eq_true] at hrun
    rw [hrun]

/-- C8 on four runs, one for each remote call failing with "dial
tcp: timeout". -/
theorem sendInvite_generic_failure_witness :
    sendInvite (inviteCtx "acme" [])
        (scriptedEnv (.ok ⟨""⟩) (.error (.other "dial tcp: timeout")) (.ok requester)
          (.ok acmeTeams) none)
      = ⟨some (.exitError "Could not send invitation to org, please try again." (-1)),
          [.loadConfig, .orgsGetByName "acme"], []⟩ ∧
    sendInvite (inviteCtx "acme" [])
        (scriptedEnv (.ok ⟨""⟩) (.ok (some acme)) (.error (.other "dial tcp: timeout"))
          (.ok acmeTeams) none)
      = ⟨some (.exitError "Could not send invitation to org, please try again." (-1)),
          [.loadConfig, .orgsGetByName "acme", .usersSelf], []⟩ ∧
    sendInvite (inviteCtx "acme" [])
        (scriptedEnv (.ok ⟨""⟩) (.ok (some acme)) (.ok requester)
          (.error (.other "dial tcp: timeout")) none)
      = ⟨some (.exitError "Could not send invitation to org, please try again." (-1)),
          [.loadConfig, .orgsGetByName "acme", .usersSelf, .teamsGetByOrg acme.ID], []⟩ ∧
    (sendInvite (inviteCtx "acme" [])
        (scriptedEnv (.ok ⟨""⟩) (.ok (some acme)) (.ok requester) (.ok acmeTeams)
          (some (.other "dial tcp: timeout")))).err
      = some (.exitError "Could not send invitation to org, please try again." (-1)) :=
  ⟨(sendInvite_generic_failure (inviteCtx "acme" [])
      (scriptedEnv (.ok ⟨""⟩) (.error (.other "dial tcp: timeout")) (.ok requester)
        (.ok acmeTeams) none)
      "bob@example.com" [] ⟨""⟩ rfl rfl (by decide) rfl).1 (.other "dial tcp: timeout") rfl,
   (sendInvite_generic_failure (inviteCtx "acme" [])
      (scriptedEnv (.ok ⟨""⟩) (.ok (some acme)) (.error (.other "dial tcp: timeout"))
        (.ok acmeTeams) none)
      "bob@example.com" [] ⟨""⟩ rfl rfl (by decide) rfl).2.1 acme (.other "dial tcp: timeout")
      rfl rfl,
   (sendInvite_generic_failure (inviteCtx "acme" [])
      (scriptedEnv (.ok ⟨""⟩) (.ok (some acme)) (.ok requester)
        (.error (.other "dial tcp: timeout")) none)
      "bob@example.com" [] ⟨""⟩ rfl rfl (by decide) rfl).2.2.1 acme requester
      (.other "dial tcp: timeout") rfl rfl rfl,
   (sendInvite_generic_failure (inviteCtx "acme" [])
      (scriptedEnv (.ok ⟨""⟩) (.ok (some acme)) (.ok requester) (.ok acmeTeams)
        (some (.other "dial tcp: timeout")))
      "bob@example.com" [] ⟨""⟩ rfl rfl (by decide) rfl).2.2.2 "bob@example.com" acme.ID
      requester.ID [T1] (.other "dial tcp: timeout") (by decide) rfl (by decide)⟩

/-- C9 as stated fails: when `loadConfig` fails, `sendInvite` returns the
error of `loadConfig` as it is; here that error is not an exit error. -/
theorem loadConfig_error_returned_as_is :
    (sendInvite (inviteCtx "acme" [])
      (scriptedEnv (.error (.other "open .torusrc: permission denied")) (.ok (some acme))
        (.ok requester) (.ok acmeTeams) none)).err
      = some (.other "open .torusrc: permission denied") ∧
    ¬ ∃ message code,
      (sendInvite (inviteCtx "acme" [])
        (scriptedEnv (.error (.other "open .torusrc: permission denied")) (.ok (some acme))
          (.ok requester) (.ok acmeTeams) none)).err = some (.exitError message code) := by
  have hrun : (sendInvite (inviteCtx "acme" [])
      (scriptedEnv (.error (.other "open .torusrc: permission denied")) (.ok (some acme))
        (.ok requester) (.ok acmeTeams) none)).err
      = some (.other "open .torusrc: permission denied") := by decide
  refine ⟨hrun, ?_⟩
  rintro ⟨message, code, h⟩
  rw [hrun] at h
  cases h

/-- C9, amended. Classification of failures: whenever `sendInvite` returns an
error, either the flag checks passed, configuration loading failed and the
error is the one `loadConfig` returned, unchanged, no other call having been
made; or the error is an exit error with status -1 whose message was built by
`sendInvite` and is one of: the usage error for a missing org flag, the usage
error for a missing email, "Org not found", "Unknown team(s): " followed by the
(non-empty) list of missing names, the already-invited message, or the generic
`orgInviteFailed`. -/
theorem sendInvite_error_classified (ctx : Context) (env : Env) (e : GoError)
    (h : (sendInvite ctx env).err = some e) :
    (ctx.orgIsSet = true ∧ (∃ email rest, ctx.args = email :: rest ∧ email ≠ "") ∧
      env.loadConfig = .error e ∧ sendInvite ctx env = ⟨some e, [.loadConfig], []⟩) ∨
    ∃ message, e = .exitError message (-1) ∧ (-1 : Int) ≠ 0 ∧
      (message = "Missing --org flag\n\n" ++ usageOf ctx ∨
       message = "Missing email\n\n" ++ usageOf ctx ∨
       message = "Org not found" ∨
       (∃ teams, missingNames (matchTeamsOf ctx) teams ≠ [] ∧
          message = "Unknown team(s): "
            ++ stringsJoin (missingNames (matchTeamsOf ctx) teams) ", ") ∨
       (∃ (email : String) (rest : List String) (org : OrgResult), ctx.args = email :: rest ∧
          message = email ++ " has already been invited to the " ++ org.Body.Name ++ " org") ∨
       message = orgInviteFailed) := by
  cases horg : ctx.orgIsSet with
  | false =>
    right
    refine ⟨"Missing --org flag\n\n" ++ usageOf ctx, ?_, by decide, Or.inl rfl⟩
    simpa [sendInvite, horg, NewExitError, eq_comm] using h
  | true =>
  cases hargs : ctx.args with
  | nil =>
    right
    refine ⟨"Missing email\n\n" ++ usageOf ctx, ?_, by decide, Or.inr (Or.inl rfl)⟩
    simpa [sendInvite, horg, hargs, NewExitError, eq_comm] using h
  | cons email rest =>
  by_cases hemail : email = ""
  · right
    refine ⟨"Missing email\n\n" ++ usageOf ctx, ?_, by decide, Or.inr (Or.inl rfl)⟩
    simpa [sendInvite, horg, hargs, hemail, NewExitError, eq_comm] using h
  cases hcfg : env.loadConfig with
  | error e0 =>
    left
    have hrun : sendInvite ctx env = ⟨some e0, [.loadConfig], []⟩ := by
      simp [sendInvite, horg, hargs, hemail, hcfg]
    rw [hrun] at h
    cases h
    exact ⟨rfl, ⟨email, rest, rfl, hemail⟩, rfl, hrun⟩
  | ok cfg =>
  right
  cases hget : (env.newClient cfg).orgsGetByName ctx.org with
  | error e0 =>
    refine ⟨orgInviteFailed, ?_, by decide, by simp⟩
    simpa [sendInvite, horg, hargs, hemail, hcfg, hget, NewExitError, eq_comm] using h
  | ok o =>
  cases o with
  | none =>
    refine ⟨"Org not found", ?_, by decide, by simp⟩
    simpa [sendInvite, horg, hargs, hemail, hcfg, hget, NewExitError, eq_comm] using h
  | some org =>
  cases hself : (env.newClient cfg).usersSelf with
  | error e0 =>
    refine ⟨orgInviteFailed, ?_, by decide, by simp⟩
    simpa [sendInvite, horg, hargs, hemail, hcfg, hget, hself, NewExitError, eq_comm] using h
  | ok user =>
  cases hteams : (env.newClient cfg).teamsGetByOrg org.ID with
  | error e0 =>
    refine ⟨orgInviteFailed, ?_, by decide, by simp⟩
    simpa [sendInvite, horg, hargs, hemail, hcfg, hget, hself, hteams, NewExitError, eq_comm]
      using h
  | ok teams =>
  rw [sendInvite_of_lookups ctx env email rest cfg org user teams horg hargs hemail hcfg hget
    hself hteams] at h
  by_cases hm : (missingNames (matchTeamsOf ctx) teams).length > 0
  · rw [if_pos hm] at h
    refine ⟨_, (Option.some.inj h).symm, by decide, ?_⟩
    refine Or.inr (Or.inr (Or.inr (Or.inl ⟨teams, ?_, rfl⟩)))
    exact List.ne_nil_of_length_pos hm
  · rw [if_neg hm] at h
    cases hsend : (env.newClient cfg).invitesSend email org.ID user.ID
        (teamSearch (matchTeamsOf ctx) teams).1 with
    | none => simp [hsend] at h
    | some err =>
      by_cases hc : stringsContains err.Error "resource exists" = true
      · simp only [hsend, hc, if_true] at h
        refine ⟨_, (Option.some.inj h).symm, by decide, ?_⟩
        exact Or.inr (Or.inr (Or.inr (Or.inr (Or.inl ⟨email, rest, org, rfl, rfl⟩))))
      · simp only [hsend, hc, if_false] at h
        refine ⟨_, (Option.some.inj h).symm, by decide, ?_⟩
        exact Or.inr (Or.inr (Or.inr (Or.inr (Or.inr rfl))))

/-- The amended C9 on two runs: a missing org flag gives the usage error built
by `sendInvite`; a failing `loadConfig` gives back the error of `loadConfig`. -/
theorem sendInvite_error_classified_witness :
    ((sendInvite ⟨"torus invites", "send", "<email>", false, "", false, [], []⟩
        (scriptedEnv (.ok ⟨""⟩) (.ok (some acme)) (.ok requester) (.ok acmeTeams) none)).err
      = some (.exitError
          "Missing --org flag\n\nUsage:\n    torus invites send [command options] <email>"
          (-1))) ∧
    (((inviteCtx "acme" []).orgIsSet = true ∧
      (∃ email rest, (inviteCtx "acme" []).args = email :: rest ∧ email ≠ "") ∧
      (scriptedEnv (.error (.other "open .torusrc: permission denied")) (.ok (some acme))
          (.ok requester) (.ok acmeTeams) none).loadConfig
        = .error (.other "open .torusrc: permission denied") ∧
      sendInvite (inviteCtx "acme" [])
        (scriptedEnv (.error (.other "open .torusrc: permission denied")) (.ok (some acme))
          (.ok requester) (.ok acmeTeams) none)
        = ⟨some (.other "open .torusrc: permission denied"), [.loadConfig], []⟩) ∨
    ∃ message, GoError.other "open .torusrc: permission denied" = .exitError message (-1) ∧
      (-1 : Int) ≠ 0 ∧
      (message = "Missing --org flag\n\n" ++ usageOf (inviteCtx "acme" []) ∨
       message = "Missing email\n\n" ++ usageOf (inviteCtx "acme" []) ∨
       message = "Org not found" ∨
       (∃ teams, missingNames (matchTeamsOf (inviteCtx "acme" [])) teams ≠ [] ∧
          message = "Unknown team(s): "
            ++ stringsJoin (missingNames (matchTeamsOf (inviteCtx "acme" [])) teams) ", ") ∨
       (∃ (email : String) (rest : List String) (org : OrgResult),
          (inviteCtx "acme" []).args = email :: rest ∧
          message = email ++ " has already been invited to the " ++ org.Body.Name ++ " org") ∨
       message = orgInviteFailed)) :=
  ⟨by decide,
    sendInvite_error_classified (inviteCtx "acme" [])
      (scriptedEnv (.error (.other "open .torusrc: permission denied")) (.ok (some acme))
        (.ok requester) (.ok acmeTeams) none)
      (.other "open .torusrc: permission denied") (by decide)⟩

/-- C10. Content of the unknown-teams message: after successful lookups, when
some name to resolve has no exact match in the team list, `sendInvite` fails
with the message "Unknown team(s): " followed by the names without a match
joined by ", "; every name without a match is listed and occurs in the
message, and no name that matched a team is one of the names listed: the
message is built from the missing names only. -/
theorem unknown_teams_message_lists_missing (ctx : Context) (env : Env) (email : String)
    (rest : List String) (cfg : Config) (org : OrgResult) (user : UserResult)
    (teams : List TeamResult)
    (horg : ctx.orgIsSet = true) (hargs : ctx.args = email :: rest) (hemail : email ≠ "")
    (hcfg : env.loadConfig = .ok cfg)
    (hget : (env.newClient cfg).orgsGetByName ctx.org = .ok (some org))
    (hself : (env.newClient cfg).usersSelf = .ok user)
    (hteams : (env.newClient cfg).teamsGetByOrg org.ID = .ok teams)
    (hmiss : ∃ name ∈ matchTeamsOf ctx, ∀ t ∈ teams, t.Body.Name ≠ name) :
    ∃ message : String,
      (sendInvite ctx env).err = some (.exitError message (-1)) ∧
      message = "Unknown team(s): " ++ stringsJoin (missingNames (matchTeamsOf ctx) teams) ", " ∧
      (∀ name ∈ matchTeamsOf ctx, (∀ t ∈ teams, t.Body.Name ≠ name) →
        name ∈ missingNames (matchTeamsOf ctx) teams ∧ stringsContains message name = true) ∧
      (∀ name ∈ matchTeamsOf ctx, (∃ t ∈ teams, t.Body.Name = name) →
        name ∉ missingNames (matchTeamsOf ctx) teams) := by
  obtain ⟨name, hname, hno⟩ := hmiss
  have hmem : name ∈ missingNames (matchTeamsOf ctx) teams :=
    (mem_missingNames _ _ _).2 ⟨hname, hno⟩
  have hpos : (missingNames (matchTeamsOf ctx) teams).length > 0 :=
    List.length_pos_of_mem hmem
  refine ⟨_, ?_, rfl, ?_, ?_⟩
  · rw [sendInvite_of_lookups ctx env email rest cfg org user teams horg hargs hemail hcfg hget
      hself hteams, if_pos hpos]
  · intro n hn hnone
    have hin : n ∈ missingNames (matchTeamsOf ctx) teams := (mem_missingNames _ _ _).2 ⟨hn, hnone⟩
    refine ⟨hin, (stringsContains_iff _ _).2 ?_⟩
    obtain ⟨u, v, huv⟩ := isInfix_stringsJoin ", " _ n hin
    exact ⟨"Unknown team(s): ".data ++ u, v, by simp [String.data_append, ← huv]⟩
  · intro n _ hsome hin
    obtain ⟨t, ht, htn⟩ := hsome
    exact ((mem_missingNames _ _ _).1 hin).2 t ht htn

/-- C10 on teams "member" and "admins" with the names "owners",
"admins" and "staff" requested: the message is "Unknown team(s): owners, staff". -/
theorem unknown_teams_message_lists_missing_witness :
    (sendInvite (inviteCtx "acme" ["owners", "admins", "staff"])
      (scriptedEnv (.ok ⟨""⟩) (.ok (some acme)) (.ok requester) (.ok acmeTeams) none)).err
      = some (.exitError "Unknown team(s): owners, staff" (-1)) ∧
    ∃ message : String,
      (sendInvite (inviteCtx "acme" ["owners", "admins", "staff"])
        (scriptedEnv (.ok ⟨""⟩) (.ok (some acme)) (.ok requester) (.ok acmeTeams) none)).err
        = some (.exitError message (-1)) ∧
      message = "Unknown team(s): "
        ++ stringsJoin
          (missingNames (matchTeamsOf (inviteCtx "acme" ["owners", "admins", "staff"])) acmeTeams)
          ", " ∧
      (∀ name ∈ matchTeamsOf (inviteCtx "acme" ["owners", "admins", "staff"]),
        (∀ t ∈ acmeTeams, t.Body.Name ≠ name) →
        name ∈ missingNames (matchTeamsOf (inviteCtx "acme" ["owners", "admins", "staff"]))
            acmeTeams ∧
          stringsContains message name = true) ∧
      (∀ name ∈ matchTeamsOf (inviteCtx "acme" ["owners", "admins", "staff"]),
        (∃ t ∈ acmeTeams, t.Body.Name = name) →
        name ∉ missingNames (matchTeamsOf (inviteCtx "acme" ["owners", "admins", "staff"]))
          acmeTeams) :=
  ⟨by decide,
    unknown_teams_message_lists_missing (inviteCtx "acme" ["owners", "admins", "staff"])
      (scriptedEnv (.ok ⟨""⟩) (.ok (some acme)) (.ok requester) (.ok acmeTeams) none)
      "bob@example.com" [] ⟨""⟩ acme requester acmeTeams rfl rfl (by decide) rfl rfl rfl rfl
      (by decide)⟩

end Invites
